import Mathlib

/-!
Verification of `aimet_torch/v2/experimental/quantsim_utils.py`.

The Python module operates on a connected-graph representation of a traced
model (ops and products/tensors) next to a tree of quantization-wrapped
modules. We embed that world shallowly:

* quantizer objects are identified by a numeric id (`QtzrId`), so that
  "the exact same object" claims become id equalities;
* each quantized module owns ordered input/output quantizer slots, each
  slot either empty or holding a quantizer id;
* the mutable slot state of all modules is a `ModStore`
  (list indexed by module id), and the mutable scalar fields of activation
  quantizers live in a separate `List Qtzr` store;
* Python strings are Lean `String`s; `str.split('.')`, `'.'.join`,
  `str.startswith` and slicing are modelled by small structural functions
  (`pySplitDot`, `pyJoinDot`, `pyStartsWith`, `pyDropChars`) so everything
  evaluates inside the kernel;
* the unbounded Python recursions (`_set_src_qtzr`, `get_closest_producer`)
  are fuel-bounded; the code assumes an acyclic graph, and the entry points
  pass `#ops + 1` fuel, which is enough for any DAG walk.
-/

namespace QuantsimUtils

/-- Identity of a quantizer object. Distinct ids are distinct Python objects. -/
abbrev QtzrId := Nat

/-- Mutable scalar fields of an activation quantizer, as touched by the
matmul second-input rule (`bitwidth`, `symmetric`, `signed`). -/
structure Qtzr where
  bitwidth : Nat
  symmetric : Bool
  signed : Bool
deriving Repr, DecidableEq, Inhabited

/-- The module types the source dispatches on by `isinstance`:
the math-invariant tuple, `custom.Concat`, `custom.Split`, `custom.MatMul`,
and a catch-all for every other module type. -/
inductive MKind where
  | reshape
  | permute
  | shapeOp
  | cast
  | channelShuffle
  | nnChannelShuffle
  | identityOp
  | concat
  | split
  | matmul
  | other
deriving Repr, DecidableEq, Inhabited

/-- A quantization-wrapped module: its Python type (`kind`), whether it is a
`BaseQuantizationMixin` instance, and its ordered input/output quantizer
slots (`none` = slot unset). -/
structure QModule where
  kind : MKind
  isQuantWrapper : Bool
  inputQuantizers : List (Option QtzrId)
  outputQuantizers : List (Option QtzrId)
deriving Repr, DecidableEq, Inhabited

/-- The mutable slot state of all modules, indexed by module id. -/
abbrev ModStore := List QModule

/-- A product (tensor edge) of the connected graph: optional producer op
index and optional static shape (`none` = non-tensor input). -/
structure Product where
  producer : Option Nat
  shape : Option (List Nat)
deriving Repr, DecidableEq, Inhabited

/-- An op node of the connected graph. `inputs`, `output` and
`outputProducts` hold product ids; `inputOps` holds op indices;
`origModuleFullName` is `cg._module_to_name[op.get_module()]`
(`none` when `op.get_module()` is falsy). -/
structure Op where
  inputs : List Nat
  output : Nat
  outputProducts : Option (List Nat)
  inputOps : List Nat
  dottedName : String
  origModuleFullName : Option String
deriving Repr, DecidableEq, Inhabited

/-- The connected graph: `_model_name`, `ordered_ops` (topological order)
and the product table. -/
structure Graph where
  modelName : String
  orderedOps : List Op
  products : List Product
deriving Repr, DecidableEq, Inhabited

/-- The quantization simulator: the optional traced graph and the wrapped
model tree, exposed as dotted-name-to-module-id bindings
(in `named_modules` order). -/
structure Sim where
  connectedGraph : Option Graph
  model : List (String × Nat)
deriving Repr, DecidableEq, Inhabited

/-! ### Python string primitives -/

/-- Auxiliary for `pySplitDot`, over the character list. -/
def splitDotAux : List Char → List (List Char)
  | [] => [[]]
  | c :: cs =>
    match splitDotAux cs with
    | [] => [[c]]
    | h :: t => if c = '.' then [] :: h :: t else (c :: h) :: t

/-- Model of Python `s.split('.')`. -/
def pySplitDot (s : String) : List String :=
  (splitDotAux s.toList).map fun l => String.mk l

/-- Model of Python `'.'.join(parts)`. -/
def pyJoinDot : List String → String
  | [] => ""
  | [s] => s
  | s :: rest => s ++ "." ++ pyJoinDot rest

/-- Model of Python `s.startswith(p)`. -/
def pyStartsWith (s p : String) : Bool :=
  p.toList.isPrefixOf s.toList

/-- Model of Python `s[n:]` (slicing by code points). -/
def pyDropChars (s : String) (n : Nat) : String :=
  String.mk (s.toList.drop n)

/-! ### `_MATH_INVARIANT_OPS` and `_is_math_invariant_op` -/

/-- The `_MATH_INVARIANT_OPS` tuple: `custom.Reshape`, `custom.Permute`,
`custom.Shape`, `custom.Cast`, `custom.ChannelShuffle`,
`torch.nn.ChannelShuffle`, `torch.nn.Identity`. -/
def _MATH_INVARIANT_OPS : List MKind :=
  [MKind.reshape, MKind.permute, MKind.shapeOp, MKind.cast,
   MKind.channelShuffle, MKind.nnChannelShuffle, MKind.identityOp]

/-- `_is_math_invariant_op`: membership of the module's type in
`_MATH_INVARIANT_OPS`. -/
def _is_math_invariant_op (m : QModule) : Bool :=
  _MATH_INVARIANT_OPS.contains m.kind

/-! ### `get_qmodule` (local helper of `_propagate_output_encodings`) -/

/-- `get_qmodule`: resolve the quantized module of a graph op. Takes the
op's fully-qualified module name, splits it on `'.'`, discards the leading
root-model component, and looks the re-joined remainder up in the wrapped
model tree (`utils.get_named_module`). -/
def get_qmodule (model : List (String × Nat)) (op : Op) : Option Nat :=
  match op.origModuleFullName with
  | none => none
  | some fullName =>
    match pySplitDot fullName with
    | [] => none
    | _ :: moduleNames =>
      if moduleNames.isEmpty then none
      else List.lookup (pyJoinDot moduleNames) model

/-! ### Slot updates -/

/-- Write `qmodule.input_quantizers[i] = qtzr` for module id `mid`. -/
def setInputQtzr (st : ModStore) (mid i : Nat) (q : QtzrId) : ModStore :=
  match st.get? mid with
  | none => st
  | some m => st.set mid { m with inputQuantizers := m.inputQuantizers.set i (some q) }

/-- Write `qmodule.output_quantizers[i] = qtzr` for module id `mid`. -/
def setOutputQtzr (st : ModStore) (mid i : Nat) (q : QtzrId) : ModStore :=
  match st.get? mid with
  | none => st
  | some m => st.set mid { m with outputQuantizers := m.outputQuantizers.set i (some q) }

/-! ### `_set_src_qtzr` -/

/-- The root-input branch of `_set_src_qtzr`: `x` has no producer, so set
the consumer's input quantizer at `x`'s index among the consumer's inputs,
with the index collapsed to `0` when the consumer is a `custom.Concat`. -/
def setRootInputQtzr (model : List (String × Nat)) (st : ModStore)
    (x : Nat) (consumer : Op) (qtzr : QtzrId) : ModStore :=
  match get_qmodule model consumer with
  | none => st
  | some mid =>
    let i := consumer.inputs.indexOf x
    let i := if (st.getD mid default).kind = MKind.concat then 0 else i
    setInputQtzr st mid i qtzr

/-- The producer branch of `_set_src_qtzr`: when the producer op has a
quantized module, overwrite its output quantizer at `x`'s index among the
producer's outputs (`output_products` when present, else the single
`output`), with the index collapsed to `0` when the producer is a
`custom.Split`, and only when that slot is currently non-empty. -/
def overwriteProducerOutput (model : List (String × Nat)) (st : ModStore)
    (producer : Op) (x : Nat) (qtzr : QtzrId) : ModStore :=
  match get_qmodule model producer with
  | none => st
  | some mid =>
    let i := (producer.outputProducts.getD [producer.output]).indexOf x
    let i := if (st.getD mid default).kind = MKind.split then 0 else i
    if ((st.getD mid default).outputQuantizers.getD i none).isSome then
      setOutputQtzr st mid i qtzr
    else st

/-- The skip-through test of `_set_src_qtzr`: propagate past the producer
when it has no quantized module or its module is math-invariant. -/
def shouldPropagateThrough (model : List (String × Nat)) (st : ModStore)
    (producer : Op) : Bool :=
  match get_qmodule model producer with
  | none => true
  | some mid => _is_math_invariant_op (st.getD mid default)

/-- `_set_src_qtzr(x, consumer, qtzr)`, fuel-bounded.

* If `x` has no producer: skip when `x` carries no shape (non-tensor
  input), otherwise write the consumer's input quantizer
  (`setRootInputQtzr`).
* If `x` has a producer: overwrite the producer's non-empty output
  quantizer slot when the producer has a quantized module
  (`overwriteProducerOutput`), and, when the producer has no quantized
  module or a math-invariant one (`shouldPropagateThrough`), recurse into
  every input of the producer with the producer as the new consumer. -/
def _set_src_qtzr (g : Graph) (model : List (String × Nat)) (qtzr : QtzrId) :
    Nat → ModStore → Nat → Op → ModStore
  | 0, st, _, _ => st
  | fuel + 1, st, x, consumer =>
    match (g.products.getD x default).producer with
    | none =>
      if (g.products.getD x default).shape = none then st
      else setRootInputQtzr model st x consumer qtzr
    | some pIdx =>
      let producer := g.orderedOps.getD pIdx default
      let st1 := overwriteProducerOutput model st producer x qtzr
      if shouldPropagateThrough model st producer then
        producer.inputs.foldl
          (fun s inp => _set_src_qtzr g model qtzr fuel s inp producer) st1
      else st1

/-! ### `_propagate_output_encodings` -/

/-- The distinguished failure modes raised by the propagation entry points
(`RuntimeError`s with distinct messages in the source; the spec's
`ConfigurationError` is `noTracedGraph` and its
`UnsupportedConfigurationError` covers the other two). -/
inductive PropError where
  | noTracedGraph
  | tooManyOutputQuantizers (found : Nat)
  | outputQuantizerUnset
deriving Repr, DecidableEq

/-- The body of the `for op in reversed(cg.ordered_ops)` loop: resolve the
op's quantized module, filter by the condition, check the output-quantizer
count is exactly 1 and the single slot is set, then run `_set_src_qtzr`
over every input of the op. -/
def processOp (g : Graph) (model : List (String × Nat)) (cond : Nat → Bool)
    (st : ModStore) (op : Op) : Except PropError ModStore :=
  match get_qmodule model op with
  | none => .ok st
  | some mid =>
    if cond mid then
      if (st.getD mid default).outputQuantizers.length ≠ 1 then
        .error (.tooManyOutputQuantizers (st.getD mid default).outputQuantizers.length)
      else
        match (st.getD mid default).outputQuantizers with
        | [some qtzr] =>
          .ok (op.inputs.foldl
            (fun s inp => _set_src_qtzr g model qtzr (g.orderedOps.length + 1) s inp op) st)
        | _ => .error .outputQuantizerUnset
    else .ok st

/-- `_propagate_output_encodings`: visit ops in reverse topological order,
propagating each matching module's single output quantizer backward. -/
def _propagate_output_encodings (g : Graph) (model : List (String × Nat))
    (cond : Nat → Bool) (st : ModStore) : Except PropError ModStore :=
  g.orderedOps.reverse.foldlM (fun s op => processOp g model cond s op) st

/-- The three overloaded selector forms of `propagate_output_encodings`. -/
inductive Selector where
  | byModuleType (t : MKind)
  | byModule (mid : Nat)
  | byCondition (cond : Nat → Bool)

/-- Collapse a selector to the canonical predicate form, as done at the top
of `propagate_output_encodings`. -/
def selectorCondition (st : ModStore) : Selector → (Nat → Bool)
  | .byModuleType t => fun mid => (st.getD mid default).kind = t
  | .byModule m => fun mid => mid = m
  | .byCondition c => c

/-- `propagate_output_encodings(sim, arg)`: build the condition, fail with
the no-traced-graph error when `sim.connected_graph` is absent, otherwise
delegate to `_propagate_output_encodings`. -/
def propagate_output_encodings (sim : Sim) (arg : Selector) (st : ModStore) :
    Except PropError ModStore :=
  let cond := selectorCondition st arg
  match sim.connectedGraph with
  | none => .error .noTracedGraph
  | some g => _propagate_output_encodings g sim.model cond st

/-! ### `clip_weights_to_7f7f` -/

/-- The immutable view of a weight parameter quantizer as read by
`clip_weights_to_7f7f`: `bitwidth`, whether it is an `AffineQuantizerBase`
instance, the `symmetric` flag, `is_initialized()`, and `get_scale()`.
Tensor elements and the scale are modelled as exact rationals. -/
structure WQtzr where
  bitwidth : Nat
  isAffine : Bool
  symmetric : Bool
  initialized : Bool
  scale : Rat
deriving Repr, DecidableEq

/-- A quantized layer as seen by `clip_weights_to_7f7f`:
`param_quantizers['weight']` is `none` when the key is absent,
`some none` when the key holds Python `None`, and the weight tensor is a
flat list of exact values. -/
structure WLayer where
  paramQuantizersWeight : Option (Option WQtzr)
  weight : List Rat
deriving Repr, DecidableEq

instance : Inhabited WLayer := ⟨⟨none, []⟩⟩

/-- `clip_weights_to_7f7f(sim)`: for every named quantized layer whose
weight parameter quantizer is present, not `None`, 16-bit, affine,
symmetric and initialized, replace the weight by
`torch.minimum(weight, scale * 0x7f7f)` element-wise; leave every other
layer untouched. -/
def clip_weights_to_7f7f (layers : List (String × WLayer)) : List (String × WLayer) :=
  layers.map fun nl =>
    match nl.2.paramQuantizersWeight with
    | some (some wq) =>
      if wq.bitwidth = 16 && wq.isAffine && wq.symmetric && wq.initialized then
        (nl.1, { nl.2 with weight := nl.2.weight.map fun w => min w (wq.scale * 0x7f7f) })
      else nl
    | _ => nl

/-! ### `set_matmul_second_input_producer_to_8bit_symmetric` -/

/-- Combined mutable state for the matmul rule: module slot state plus the
field store of the activation quantizer objects. -/
structure SimState where
  modules : ModStore
  qtzrs : List Qtzr
deriving Repr, DecidableEq, Inhabited

/-- The `quant_modules` dict: the named modules of the wrapped model that
are `BaseQuantizationMixin` instances, in `named_modules` order. -/
def quant_modules (model : List (String × Nat)) (mods : ModStore) : List (String × Nat) :=
  model.filter fun nm => (mods.getD nm.2 default).isQuantWrapper

/-- `get_connected_graph_op(connected_graph, model_name, name)`:
`cg._name_to_module[f'{model_name}.{name}']` followed by
`cg._module_to_op_dict[...]`, i.e. the op whose originating module has the
fully-qualified name `model_name ++ "." ++ name`. -/
def get_connected_graph_op (g : Graph) (modelName name : String) : Option Op :=
  g.orderedOps.find? fun op => op.origModuleFullName == some (modelName ++ "." ++ name)

/-- The quantized-module resolution at the top of `get_closest_producer`:
strip the `f'{model_name}.'` piece from `op.dotted_name` when present and
look the remainder up in `quant_modules`. -/
def closestProducerAssoc (g : Graph) (qm : List (String × Nat)) (op : Op) : Option Nat :=
  if pyStartsWith op.dottedName (g.modelName ++ ".") then
    List.lookup (pyDropChars op.dottedName (g.modelName ++ ".").length) qm
  else
    List.lookup op.dottedName qm

/-- `get_closest_producer(op)`, fuel-bounded. Resolve the op's quantized
module (`closestProducerAssoc`). If a module is found: return it when its
output quantizer slot 0 is non-empty, recurse into the sole input op when
there is exactly one, else warn and give up. If no module is found: warn
and give up when there are no input ops, otherwise (warning when more than
one) recurse into the first input op. -/
def get_closest_producer (g : Graph) (qm : List (String × Nat)) (mods : ModStore) :
    Nat → Op → Option Nat
  | 0, _ => none
  | fuel + 1, op =>
    match closestProducerAssoc g qm op with
    | some mid =>
      if ((mods.getD mid default).outputQuantizers.getD 0 none).isSome then some mid
      else
        match op.inputOps with
        | [i] => get_closest_producer g qm mods fuel (g.orderedOps.getD i default)
        | _ => none
    | none =>
      match op.inputOps with
      | [] => none
      | i :: _ => get_closest_producer g qm mods fuel (g.orderedOps.getD i default)

/-- The body of the `for name, module in quant_modules.items()` loop of
`set_matmul_second_input_producer_to_8bit_symmetric`, for one named
module: if it is a `custom.MatMul`, unpack its two input quantizer slots;
when the second slot is unset, follow the producer of the matmul op's
second input product through `get_closest_producer` and take that
wrapper's `output_quantizers[0]`; finally, if a target quantizer was
resolved, force its fields to `(bitwidth 8, symmetric, signed)`.
The module's own input-quantizer slots are never written. -/
def applyMatmulStep (g : Graph) (qm : List (String × Nat)) (st : SimState)
    (nm : String × Nat) : SimState :=
  let m := st.modules.getD nm.2 default
  if m.kind = MKind.matmul then
    match m.inputQuantizers with
    | [_, targetQuantizer] =>
      match get_connected_graph_op g g.modelName nm.1 with
      | none => st
      | some matmulOp =>
        let target :=
          if targetQuantizer.isNone then
            match (g.products.getD (matmulOp.inputs.getD 1 0) default).producer with
            | none => none
            | some pIdx =>
              match get_closest_producer g qm st.modules (g.orderedOps.length + 1)
                      (g.orderedOps.getD pIdx default) with
              | some wmid => (st.modules.getD wmid default).outputQuantizers.getD 0 none
              | none => none
          else targetQuantizer
        match target with
        | some qid =>
          { st with qtzrs := st.qtzrs.set qid { bitwidth := 8, symmetric := true, signed := true } }
        | none => st
    | _ => st
  else st

/-- `set_matmul_second_input_producer_to_8bit_symmetric(sim)`: build
`quant_modules` once, then apply the per-module step to every quantized
module in order. -/
def set_matmul_second_input_producer_to_8bit_symmetric (sim : Sim) (st : SimState) : SimState :=
  match sim.connectedGraph with
  | none => st
  | some g =>
    let qm := quant_modules sim.model st.modules
    qm.foldl (applyMatmulStep g qm) st

/-! ### Specification-reference definition of the closest-producer search -/

/-- Reference definition of the closest-producer search, transcribed from
the specification's recursive description: given op `p`, if `p` has an
associated quantized module, return it when its output-quantizer slot 0 is
non-empty, else recurse into its sole input op when `p` has exactly one
input op, else give up; if `p` has no associated quantized module, give up
when it has no input ops, and otherwise continue into the first input op. -/
def closestProducerSpecRef (g : Graph) (qm : List (String × Nat)) (mods : ModStore) :
    Nat → Op → Option Nat
  | 0, _ => none
  | fuel + 1, p =>
    match closestProducerAssoc g qm p with
    | some mid =>
      if ((mods.getD mid default).outputQuantizers.getD 0 none).isSome then some mid
      else if p.inputOps.length = 1 then
        closestProducerSpecRef g qm mods fuel (g.orderedOps.getD (p.inputOps.headD 0) default)
      else none
    | none =>
      if p.inputOps.isEmpty then none
      else closestProducerSpecRef g qm mods fuel (g.orderedOps.getD (p.inputOps.headD 0) default)

/-! ### Proof-support definitions and concrete fixtures

`ModPres` names the state-preservation relation used by several proofs;
the remaining definitions are small concrete graphs, stores and layers at
which universally-quantified theorems are instantiated. -/

/-- What a `_set_src_qtzr` walk can never change: the store length, every
module's type, and the `isSome` mask of every module's output quantizer
slots (an empty output slot is never filled, a filled one never emptied). -/
def ModPres (s t : ModStore) : Prop :=
  t.length = s.length ∧
  (∀ mid, (t.getD mid default).kind = (s.getD mid default).kind) ∧
  (∀ mid, (t.getD mid default).outputQuantizers.map Option.isSome =
    (s.getD mid default).outputQuantizers.map Option.isSome)

/-- Witness fixture for C2: one op whose module has zero output quantizers. -/
def opW : Op := ⟨[0], 1, none, [], "model.w", some "model.w"⟩

/-- Witness graph for C2. -/
def gW : Graph := ⟨"model", [opW], [⟨none, some [1]⟩, ⟨some 0, some [1]⟩]⟩

/-- Witness model tree for C2. -/
def modelW : List (String × Nat) := [("w", 0)]

/-- Witness module store for C2. -/
def stW : ModStore := [⟨MKind.other, true, [none], []⟩]

/-- Witness fixtures for C5: a concat consumer whose root input sits at
positional index 1, and a split producer whose product sits at positional
index 1 among `output_products`. -/
def opConcatW : Op := ⟨[7, 3], 9, none, [], "model.c", some "model.c"⟩

/-- Witness graph for the concat half of C5. -/
def gConcatW : Graph :=
  ⟨"model", [opConcatW],
   [⟨some 0, some [1]⟩, ⟨none, some [1]⟩, ⟨none, some [1]⟩, ⟨none, some [2]⟩]⟩

/-- Witness store for the concat half of C5. -/
def stConcatW : ModStore := [⟨MKind.concat, true, [none], [some 5]⟩]

/-- Witness op for the split half of C5. -/
def opSplitW : Op := ⟨[0], 4, some [4, 1, 6], [], "model.s", some "model.s"⟩

/-- Witness graph for the split half of C5. -/
def gSplitW : Graph :=
  ⟨"model", [opSplitW],
   [⟨none, some [1]⟩, ⟨some 0, some [1]⟩]⟩

/-- Witness store for the split half of C5. -/
def stSplitW : ModStore := [⟨MKind.split, true, [none], [some 2]⟩]

/-- Matmul fixture: producer module 0 feeding the second input of matmul
module 1 whose second input quantizer slot is unset. -/
def stMM : SimState :=
  { modules :=
      [⟨MKind.other, true, [none], [some 0]⟩,
       ⟨MKind.matmul, true, [none, none], [some 1]⟩],
    qtzrs := [⟨16, false, false⟩, ⟨16, false, false⟩] }

/-- Matmul fixture graph: `model.p -> model.mm` with the matmul's second
input product produced by `model.p`. -/
def gMM : Graph :=
  { modelName := "model"
    orderedOps :=
      [⟨[0], 1, none, [], "model.p", some "model.p"⟩,
       ⟨[2, 1], 3, none, [0], "model.mm", some "model.mm"⟩]
    products :=
      [⟨none, some [1]⟩, ⟨some 0, some [1]⟩, ⟨none, some [1]⟩, ⟨some 1, some [1]⟩] }

/-- Matmul fixture model tree. -/
def modelMM : List (String × Nat) := [("p", 0), ("mm", 1)]

/-- Witness for C7: matmul with a pre-assigned second input slot
(quantizer object 1); the slot is kept and object 1 is coerced. -/
def stMM7 : SimState :=
  { modules :=
      [⟨MKind.other, true, [none], [some 0]⟩,
       ⟨MKind.matmul, true, [none, some 1], [none]⟩],
    qtzrs := [⟨16, false, false⟩, ⟨16, false, false⟩] }

/-- C8 witness fixtures: a 16-bit affine symmetric initialized layer with
scale 2 (clip bound `0x7f7f * 2 = 65278`), and an 8-bit layer. -/
def wqA : WQtzr := ⟨16, true, true, true, 2⟩

/-- The layer satisfying all five preconditions. -/
def layerA : WLayer := ⟨some (some wqA), [1, 100000]⟩

/-- The layer failing the bitwidth precondition. -/
def layerB : WLayer := ⟨some (some ⟨8, true, true, true, 2⟩), [100000]⟩

/-- C9 fixture: module stores for `A(quantized) -> Reshape -> B(quantized)`;
A is module 0 with output quantizer object 0, B is module 2 with output
quantizer object 1 and an empty input slot. -/
def st9 : ModStore :=
  [⟨MKind.other, true, [none], [some 0]⟩,
   ⟨MKind.reshape, true, [none], [none]⟩,
   ⟨MKind.other, true, [none], [some 1]⟩]

/-- C9 fixture graph: a root product into A, A's output through the
reshape into B. -/
def g9 : Graph :=
  { modelName := "model"
    orderedOps :=
      [⟨[0], 1, none, [], "model.a", some "model.a"⟩,
       ⟨[1], 2, none, [0], "model.r", some "model.r"⟩,
       ⟨[2], 3, none, [1], "model.b", some "model.b"⟩]
    products :=
      [⟨none, some [1]⟩, ⟨some 0, some [1]⟩, ⟨some 1, some [1]⟩, ⟨some 2, some [1]⟩] }

/-- C9 fixture model tree. -/
def model9 : List (String × Nat) := [("a", 0), ("r", 1), ("b", 2)]

/-- The state after propagating with a selector matching B: A's output
slot 0 now holds B's output quantizer object 1; B's slots are unchanged. -/
def stF9 : ModStore :=
  [⟨MKind.other, true, [none], [some 1]⟩,
   ⟨MKind.reshape, true, [none], [none]⟩,
   ⟨MKind.other, true, [none], [some 1]⟩]

/-- C4 witness fixture: root -> Reshape (module 0) -> S (module 1, selected,
output quantizer object 3). -/
def stC4 : ModStore :=
  [⟨MKind.reshape, true, [none], [none]⟩,
   ⟨MKind.other, true, [none], [some 3]⟩]

/-- C4 witness graph. -/
def gC4 : Graph :=
  { modelName := "model"
    orderedOps :=
      [⟨[0], 1, none, [], "model.r", some "model.r"⟩,
       ⟨[1], 2, none, [0], "model.s", some "model.s"⟩]
    products := [⟨none, some [1]⟩, ⟨some 0, some [1]⟩, ⟨some 1, some [1]⟩] }

/-- C4 witness model tree. -/
def modelC4 : List (String × Nat) := [("r", 0), ("s", 1)]

/-! ### List helper lemmas -/

theorem getD_set_self {α : Type} (l : List α) (i : Nat) (a d : α) (h : i < l.length) :
    (l.set i a).getD i d = a := by
  induction l generalizing i with
  | nil => simp at h
  | cons b bs ih =>
    cases i with
    | zero => rfl
    | succ j =>
      simp only [List.set, List.getD, List.getElem?_cons_succ]
      exact ih j (by simpa using h)

theorem getD_set_ne {α : Type} (l : List α) (i j : Nat) (a d : α) (h : i ≠ j) :
    (l.set i a).getD j d = l.getD j d := by
  induction l generalizing i j with
  | nil => rfl
  | cons b bs ih =>
    cases i with
    | zero =>
      cases j with
      | zero => exact absurd rfl h
      | succ k => rfl
    | succ i' =>
      cases j with
      | zero => rfl
      | succ k =>
        simp only [List.set, List.getD, List.getElem?_cons_succ]
        exact ih i' k fun hc => h (by rw [hc])

theorem getD_set_out {α : Type} (l : List α) (i : Nat) (a : α) (h : l.length ≤ i) :
    l.set i a = l := by
  exact List.set_eq_of_length_le h

theorem length_set_eq {α : Type} (l : List α) (i : Nat) (a : α) :
    (l.set i a).length = l.length := List.length_set l i a

/-- Setting a list position that currently holds `some _` to `some q`
preserves the element-wise `isSome` mask. -/
theorem map_isSome_set_of_isSome {α : Type} (l : List (Option α)) (i : Nat) (q : α)
    (h : (l.getD i none).isSome = true) :
    (l.set i (some q)).map Option.isSome = l.map Option.isSome := by
  induction l generalizing i with
  | nil => rfl
  | cons b bs ih =>
    cases i with
    | zero =>
      rw [List.getD_cons_zero] at h
      simp only [List.set, List.map]
      rw [h]
      rfl
    | succ j =>
      rw [List.getD_cons_succ] at h
      simp only [List.set, List.map]
      rw [ih j h]

/-! ### Slot-update lemmas -/

namespace SlotLemmas

theorem length_setInputQtzr (st : ModStore) (mid i : Nat) (q : QtzrId) :
    (setInputQtzr st mid i q).length = st.length := by
  unfold setInputQtzr
  cases h : st.get? mid with
  | none => rfl
  | some m => exact List.length_set st mid _

theorem length_setOutputQtzr (st : ModStore) (mid i : Nat) (q : QtzrId) :
    (setOutputQtzr st mid i q).length = st.length := by
  unfold setOutputQtzr
  cases h : st.get? mid with
  | none => rfl
  | some m => exact List.length_set st mid _

theorem getD_of_get?_some (st : ModStore) (mid : Nat) (m : QModule) (h : st.get? mid = some m) :
    st.getD mid default = m := by
  simp only [List.getD, List.get?_eq_getElem?] at *
  rw [h]
  rfl

theorem kind_setInputQtzr (st : ModStore) (mid i : Nat) (q : QtzrId) (j : Nat) :
    ((setInputQtzr st mid i q).getD j default).kind = (st.getD j default).kind := by
  unfold setInputQtzr
  cases h : st.get? mid with
  | none => rfl
  | some m =>
    by_cases hj : mid = j
    · subst hj
      rw [getD_set_self st mid _ default (by
          have := List.get?_eq_some.mp h
          exact this.choose)]
      rw [getD_of_get?_some st mid m h]
    · rw [getD_set_ne st mid j _ default hj]

theorem kind_setOutputQtzr (st : ModStore) (mid i : Nat) (q : QtzrId) (j : Nat) :
    ((setOutputQtzr st mid i q).getD j default).kind = (st.getD j default).kind := by
  unfold setOutputQtzr
  cases h : st.get? mid with
  | none => rfl
  | some m =>
    by_cases hj : mid = j
    · subst hj
      rw [getD_set_self st mid _ default (List.get?_eq_some.mp h).choose]
      rw [getD_of_get?_some st mid m h]
    · rw [getD_set_ne st mid j _ default hj]

theorem inputQuantizers_setOutputQtzr (st : ModStore) (mid i : Nat) (q : QtzrId) (j : Nat) :
    ((setOutputQtzr st mid i q).getD j default).inputQuantizers =
      (st.getD j default).inputQuantizers := by
  unfold setOutputQtzr
  cases h : st.get? mid with
  | none => rfl
  | some m =>
    by_cases hj : mid = j
    · subst hj
      rw [getD_set_self st mid _ default (List.get?_eq_some.mp h).choose]
      rw [getD_of_get?_some st mid m h]
    · rw [getD_set_ne st mid j _ default hj]

theorem outputQuantizers_setInputQtzr (st : ModStore) (mid i : Nat) (q : QtzrId) (j : Nat) :
    ((setInputQtzr st mid i q).getD j default).outputQuantizers =
      (st.getD j default).outputQuantizers := by
  unfold setInputQtzr
  cases h : st.get? mid with
  | none => rfl
  | some m =>
    by_cases hj : mid = j
    · subst hj
      rw [getD_set_self st mid _ default (List.get?_eq_some.mp h).choose]
      rw [getD_of_get?_some st mid m h]
    · rw [getD_set_ne st mid j _ default hj]

theorem outSome_setOutputQtzr (st : ModStore) (mid i : Nat) (q : QtzrId) (j : Nat)
    (hguard : (((st.getD mid default).outputQuantizers).getD i none).isSome = true) :
    ((setOutputQtzr st mid i q).getD j default).outputQuantizers.map Option.isSome =
      (st.getD j default).outputQuantizers.map Option.isSome := by
  unfold setOutputQtzr
  cases h : st.get? mid with
  | none => rfl
  | some m =>
    by_cases hj : mid = j
    · subst hj
      rw [getD_set_self st mid _ default (List.get?_eq_some.mp h).choose]
      rw [getD_of_get?_some st mid m h] at hguard ⊢
      exact map_isSome_set_of_isSome m.outputQuantizers i q hguard
    · rw [getD_set_ne st mid j _ default hj]

/-- Reading `setInputQtzr` back at the written module. -/
theorem getD_setInputQtzr_self (st : ModStore) (mid i : Nat) (q : QtzrId)
    (h : mid < st.length) :
    (setInputQtzr st mid i q).getD mid default =
      { st.getD mid default with
        inputQuantizers := (st.getD mid default).inputQuantizers.set i (some q) } := by
  unfold setInputQtzr
  cases hm : st.get? mid with
  | none =>
    exact absurd (List.get?_eq_get h) (by rw [hm]; exact fun hc => Option.noConfusion hc)
  | some m =>
    rw [getD_set_self st mid _ default h]
    rw [getD_of_get?_some st mid m hm]

end SlotLemmas

/-! ### The state-preservation relation of one propagation walk -/

open SlotLemmas

theorem modPres_refl (s : ModStore) : ModPres s s := ⟨rfl, fun _ => rfl, fun _ => rfl⟩

theorem modPres_trans {s t u : ModStore} (h1 : ModPres s t) (h2 : ModPres t u) :
    ModPres s u :=
  ⟨h2.1.trans h1.1,
   fun mid => (h2.2.1 mid).trans (h1.2.1 mid),
   fun mid => (h2.2.2 mid).trans (h1.2.2 mid)⟩

theorem modPres_setInputQtzr (st : ModStore) (mid i : Nat) (q : QtzrId) :
    ModPres st (setInputQtzr st mid i q) :=
  ⟨length_setInputQtzr st mid i q,
   fun j => kind_setInputQtzr st mid i q j,
   fun j => by rw [outputQuantizers_setInputQtzr st mid i q j]⟩

theorem modPres_setRootInputQtzr (model : List (String × Nat)) (st : ModStore)
    (x : Nat) (consumer : Op) (q : QtzrId) :
    ModPres st (setRootInputQtzr model st x consumer q) := by
  unfold setRootInputQtzr
  cases get_qmodule model consumer with
  | none => exact modPres_refl st
  | some mid => exact modPres_setInputQtzr st mid _ q

theorem modPres_guardedSetOutput (st : ModStore) (mid i : Nat) (q : QtzrId) :
    ModPres st
      (if ((st.getD mid default).outputQuantizers.getD i none).isSome then
        setOutputQtzr st mid i q
      else st) := by
  split
  · next hguard =>
      exact ⟨length_setOutputQtzr st mid i q,
        fun j => kind_setOutputQtzr st mid i q j,
        fun j => outSome_setOutputQtzr st mid i q j hguard⟩
  · exact modPres_refl st

theorem modPres_overwriteProducerOutput (model : List (String × Nat)) (st : ModStore)
    (producer : Op) (x : Nat) (q : QtzrId) :
    ModPres st (overwriteProducerOutput model st producer x q) := by
  unfold overwriteProducerOutput
  cases get_qmodule model producer with
  | none => exact modPres_refl st
  | some mid =>
    dsimp only
    exact modPres_guardedSetOutput st mid _ q

theorem foldl_modPres {β : Type} (f : ModStore → β → ModStore) (l : List β) (s : ModStore)
    (h : ∀ s' b, ModPres s' (f s' b)) : ModPres s (l.foldl f s) := by
  induction l generalizing s with
  | nil => exact modPres_refl s
  | cons b bs ih =>
    rw [List.foldl_cons]
    exact modPres_trans (h s b) (ih (f s b))

/-- A `_set_src_qtzr` walk preserves `ModPres`. -/
theorem setSrc_modPres (g : Graph) (model : List (String × Nat)) (q : QtzrId) :
    ∀ fuel st x consumer, ModPres st (_set_src_qtzr g model q fuel st x consumer) := by
  intro fuel
  induction fuel with
  | zero => intro st x consumer; exact modPres_refl st
  | succ fuel ih =>
    intro st x consumer
    rw [_set_src_qtzr]
    cases (g.products.getD x default).producer with
    | none =>
      dsimp only
      split
      · exact modPres_refl st
      · exact modPres_setRootInputQtzr model st x consumer q
    | some pIdx =>
      dsimp only
      split
      · exact modPres_trans
          (modPres_overwriteProducerOutput model st _ x q)
          (foldl_modPres _ _ _ (fun s' b => ih s' b _))
      · exact modPres_overwriteProducerOutput model st _ x q

/-! ### Failure analysis of the propagation loop -/

/-- Every state an `.ok` step of the loop body produces is `ModPres`-related
to the state it started from. -/
theorem processOp_modPres (g : Graph) (model : List (String × Nat)) (cond : Nat → Bool) :
    ∀ s op s', processOp g model cond s op = .ok s' → ModPres s s' := by
  intro s op s' h
  unfold processOp at h
  cases hq : get_qmodule model op with
  | none =>
    rw [hq] at h
    cases h
    exact modPres_refl s
  | some mid =>
    rw [hq] at h
    dsimp only at h
    by_cases hc : cond mid = true
    · rw [if_pos hc] at h
      by_cases hl : (s.getD mid default).outputQuantizers.length ≠ 1
      · rw [if_pos hl] at h
        exact absurd h (by intro hcon; exact Except.noConfusion hcon)
      · rw [if_neg hl] at h
        revert h
        cases hout : (s.getD mid default).outputQuantizers with
        | nil => intro h; exact absurd h (by intro hcon; exact Except.noConfusion hcon)
        | cons o rest =>
          cases o with
          | none => intro h; exact absurd h (by intro hcon; exact Except.noConfusion hcon)
          | some qtzr =>
            cases rest with
            | nil =>
              intro h
              cases h
              exact foldl_modPres _ _ _ fun s' b =>
                setSrc_modPres g model qtzr (g.orderedOps.length + 1) s' b op
            | cons o2 rest2 =>
              intro h
              exact absurd h (by intro hcon; exact Except.noConfusion hcon)
    · rw [if_neg hc] at h
      cases h
      exact modPres_refl s


/-- If a monadic fold over `Except` succeeds, every list element was
processed successfully from some intermediate state reachable (in the
`ModPres` sense) from the initial one. -/
theorem foldlM_ok_of_mem {f : ModStore → Op → Except PropError ModStore}
    (hpres : ∀ s o s', f s o = .ok s' → ModPres s s') :
    ∀ (l : List Op) (s t : ModStore), l.foldlM f s = .ok t →
      ∀ x ∈ l, ∃ s₀ s₁, ModPres s s₀ ∧ f s₀ x = .ok s₁ := by
  intro l
  induction l with
  | nil => intro s t _ x hx; exact absurd hx (List.not_mem_nil x)
  | cons y ys ih =>
    intro s t h x hx
    rw [List.foldlM_cons] at h
    cases hf : f s y with
    | error e =>
      rw [hf] at h
      exact absurd h (by intro hcon; exact Except.noConfusion hcon)
    | ok s1 =>
      rw [hf] at h
      simp only [Bind.bind, Except.bind] at h
      rcases List.mem_cons.mp hx with hxy | hxys
      · exact ⟨s, s1, modPres_refl s, hxy ▸ hf⟩
      · rcases ih s1 t h x hxys with ⟨s₀, s₁, hp, hfx⟩
        exact ⟨s₀, s₁, modPres_trans (hpres s y s1 hf) hp, hfx⟩

/-- A list of optional values whose `isSome` mask is `[true]` is a
singleton holding `some _`. -/
theorem eq_singleton_some_of_mask {l : List (Option QtzrId)}
    (h : l.map Option.isSome = [true]) : ∃ q, l = [some q] := by
  cases l with
  | nil => exact absurd h (by intro hcon; exact List.noConfusion hcon)
  | cons o rest =>
    cases rest with
    | nil =>
      cases o with
      | none => simp at h
      | some q => exact ⟨q, rfl⟩
    | cons o2 rest2 => simp at h

/-! ### Claim C2 -/

/-- C2: for every module selected by the propagation predicate, if its
output quantizer count is not exactly 1 the loop body fails with the
too-many error (carrying the found count), if its single output slot is
unset it fails with the distinguished unset error; in both cases no state
is produced, and the whole propagation call never returns `.ok`. -/
theorem claim_C2_selected_module_bad_output_quantizers_fail
    (g : Graph) (model : List (String × Nat)) (cond : Nat → Bool)
    (st : ModStore) (op : Op) (mid : Nat)
    (hq : get_qmodule model op = some mid) (hc : cond mid = true) :
    ((st.getD mid default).outputQuantizers.length ≠ 1 →
      processOp g model cond st op =
        .error (.tooManyOutputQuantizers (st.getD mid default).outputQuantizers.length)) ∧
    ((st.getD mid default).outputQuantizers = [none] →
      processOp g model cond st op = .error .outputQuantizerUnset) ∧
    (op ∈ g.orderedOps → (∀ q : QtzrId, (st.getD mid default).outputQuantizers ≠ [some q]) →
      ∀ st', _propagate_output_encodings g model cond st ≠ .ok st') := by
  refine ⟨?_, ?_, ?_⟩
  · intro hl
    unfold processOp
    rw [hq]
    dsimp only
    rw [if_pos hc, if_pos hl]
  · intro hout
    have hl : ¬ ((st.getD mid default).outputQuantizers.length ≠ 1) := by
      rw [hout]; simp
    unfold processOp
    rw [hq]
    dsimp only
    rw [if_pos hc, if_neg hl, hout]
  · intro hmem hbad st' h
    unfold _propagate_output_encodings at h
    have hx : op ∈ g.orderedOps.reverse := List.mem_reverse.mpr hmem
    obtain ⟨s₀, s₁, hp, hok⟩ :=
      foldlM_ok_of_mem (processOp_modPres g model cond) _ st st' h op hx
    have hmask := hp.2.2 mid
    unfold processOp at hok
    rw [hq] at hok
    dsimp only at hok
    rw [if_pos hc] at hok
    by_cases hl : (s₀.getD mid default).outputQuantizers.length ≠ 1
    · rw [if_pos hl] at hok
      exact Except.noConfusion hok
    · rw [if_neg hl] at hok
      revert hok
      cases hout : (s₀.getD mid default).outputQuantizers with
      | nil => intro hok; exact Except.noConfusion hok
      | cons o rest =>
        cases o with
        | none => intro hok; exact Except.noConfusion hok
        | some qtzr =>
          cases rest with
          | nil =>
            intro _
            rw [hout] at hmask
            obtain ⟨q2, hq2⟩ := eq_singleton_some_of_mask hmask.symm
            exact hbad q2 hq2
          | cons o2 rest2 => intro hok; exact Except.noConfusion hok

/-- Witness for C2 at a concrete module with zero output quantizers. -/
theorem claim_C2_selected_module_bad_output_quantizers_fail_witness :
    processOp gW modelW (fun _ => true) stW opW = .error (.tooManyOutputQuantizers 0) ∧
    _propagate_output_encodings gW modelW (fun _ => true) stW ≠ .ok stW :=
  ⟨(claim_C2_selected_module_bad_output_quantizers_fail gW modelW (fun _ => true)
      stW opW 0 (by decide) rfl).1 (by decide),
   (claim_C2_selected_module_bad_output_quantizers_fail gW modelW (fun _ => true)
      stW opW 0 (by decide) rfl).2.2 (by decide)
      (fun q hq2 => List.noConfusion hq2) stW⟩

/-! ### Claim C3 -/

/-- C3: when the simulator has no traced connected graph, every call to
`propagate_output_encodings` (whatever the selector form and whatever the
quantizer state) fails immediately with the no-traced-graph error; the
quantizer state is neither read nor changed. -/
theorem claim_C3_propagation_requires_traced_graph
    (sim : Sim) (arg : Selector) (st : ModStore)
    (h : sim.connectedGraph = none) :
    propagate_output_encodings sim arg st = .error .noTracedGraph := by
  unfold propagate_output_encodings
  rw [h]

/-- Witness for C3 at a concrete graph-less simulator. -/
theorem claim_C3_propagation_requires_traced_graph_witness :
    propagate_output_encodings ⟨none, []⟩ (.byCondition fun _ => true) [] =
      .error .noTracedGraph :=
  claim_C3_propagation_requires_traced_graph ⟨none, []⟩ (.byCondition fun _ => true) [] rfl

/-! ### Claim C5 -/

/-- C5: propagation into a variadic op collapses the quantizer slot index
to 0 regardless of the tensor's positional index. First conjunct: a root
input consumed by a `custom.Concat` module is always written to input slot
0, whatever its index among the consumer's inputs. Second conjunct: a
product produced by a `custom.Split` module always reads and writes output
slot 0, whatever its index among the producer's outputs (and, split not
being math-invariant, propagation stops there). -/
theorem claim_C5_variadic_ops_collapse_index_to_zero :
    (∀ (g : Graph) (model : List (String × Nat)) (qtzr : QtzrId) (fuel : Nat)
       (st : ModStore) (x : Nat) (consumer : Op) (mid : Nat),
      (g.products.getD x default).producer = none →
      (g.products.getD x default).shape ≠ none →
      get_qmodule model consumer = some mid →
      (st.getD mid default).kind = MKind.concat →
      _set_src_qtzr g model qtzr (fuel + 1) st x consumer = setInputQtzr st mid 0 qtzr) ∧
    (∀ (g : Graph) (model : List (String × Nat)) (qtzr : QtzrId) (fuel : Nat)
       (st : ModStore) (x : Nat) (consumer : Op) (pIdx mid : Nat),
      (g.products.getD x default).producer = some pIdx →
      get_qmodule model (g.orderedOps.getD pIdx default) = some mid →
      (st.getD mid default).kind = MKind.split →
      _set_src_qtzr g model qtzr (fuel + 1) st x consumer =
        (if ((st.getD mid default).outputQuantizers.getD 0 none).isSome then
          setOutputQtzr st mid 0 qtzr
        else st)) := by
  constructor
  · intro g model qtzr fuel st x consumer mid hprod hshape hq hkind
    rw [_set_src_qtzr, hprod]
    dsimp only
    rw [if_neg hshape]
    unfold setRootInputQtzr
    rw [hq]
    dsimp only
    rw [if_pos hkind]
  · intro g model qtzr fuel st x consumer pIdx mid hprod hq hkind
    have hinv : _is_math_invariant_op (st.getD mid default) = false := by
      unfold _is_math_invariant_op
      rw [hkind]
      decide
    rw [_set_src_qtzr, hprod]
    dsimp only
    unfold shouldPropagateThrough
    rw [hq]
    dsimp only
    rw [hinv]
    rw [if_neg (by exact fun hcon => Bool.noConfusion hcon)]
    unfold overwriteProducerOutput
    rw [hq]
    dsimp only
    rw [if_pos hkind]

/-- Witness for C5: both halves applied at tensors of positional index 1;
the writes land on slot 0. -/
theorem claim_C5_variadic_ops_collapse_index_to_zero_witness :
    _set_src_qtzr gConcatW [("c", 0)] 9 1 stConcatW 3 opConcatW =
      setInputQtzr stConcatW 0 0 9 ∧
    _set_src_qtzr gSplitW [("s", 0)] 9 1 stSplitW 1 opSplitW =
      (if ((stSplitW.getD 0 default).outputQuantizers.getD 0 none).isSome then
        setOutputQtzr stSplitW 0 0 9
      else stSplitW) :=
  ⟨claim_C5_variadic_ops_collapse_index_to_zero.1 gConcatW [("c", 0)] 9 0 stConcatW 3
      opConcatW 0 (by decide) (by decide) (by decide) (by decide),
   claim_C5_variadic_ops_collapse_index_to_zero.2 gSplitW [("s", 0)] 9 0 stSplitW 1
      opSplitW 0 0 (by decide) (by decide) (by decide)⟩

/-! ### Claim C6 -/

/-- C6: the fuel-bounded closest-producer search of the code coincides,
for every fuel and every op, with the specification's recursive reference
definition. -/
theorem claim_C6_closest_producer_equals_spec_reference
    (g : Graph) (qm : List (String × Nat)) (mods : ModStore) :
    ∀ fuel op, get_closest_producer g qm mods fuel op =
      closestProducerSpecRef g qm mods fuel op := by
  intro fuel
  induction fuel with
  | zero => intro op; rfl
  | succ n ih =>
    intro op
    rw [get_closest_producer, closestProducerSpecRef]
    cases closestProducerAssoc g qm op with
    | some mid =>
      dsimp only
      by_cases hs : ((mods.getD mid default).outputQuantizers.getD 0 none).isSome = true
      · rw [hs]
        rfl
      · rw [Bool.not_eq_true] at hs
        rw [hs]
        cases hio : op.inputOps with
        | nil => rfl
        | cons i rest =>
          cases rest with
          | nil =>
            dsimp only [List.length, List.headD]
            rw [if_pos rfl]
            exact ih _
          | cons j rest2 =>
            dsimp only [List.length, List.headD]
            have hne : rest2.length + 1 + 1 ≠ 1 := by omega
            rw [if_neg hne]
    | none =>
      dsimp only
      cases hio : op.inputOps with
      | nil => rfl
      | cons i rest =>
        dsimp only [List.headD, List.isEmpty]
        exact ih _

/-! ### Claims C7, C10, C1: the matmul second-input rule -/

/-- C7: a matmul module whose second input quantizer slot is already
assigned keeps that slot's reference untouched (the module store is not
written at all), while the referenced quantizer object's fields are
overwritten to bitwidth 8, symmetric, signed. -/
theorem claim_C7_matmul_preassigned_slot_kept_fields_coerced
    (g : Graph) (qm : List (String × Nat)) (st : SimState) (name : String) (mid : Nat)
    (a : Option QtzrId) (qid : QtzrId) (mop : Op)
    (hkind : (st.modules.getD mid default).kind = MKind.matmul)
    (hslots : (st.modules.getD mid default).inputQuantizers = [a, some qid])
    (hop : get_connected_graph_op g g.modelName name = some mop) :
    applyMatmulStep g qm st (name, mid) =
      { st with qtzrs := st.qtzrs.set qid { bitwidth := 8, symmetric := true, signed := true } } := by
  unfold applyMatmulStep
  dsimp only
  rw [if_pos hkind, hslots, hop]
  rfl

/-- C10: for a matmul module whose second input quantizer slot is unset
and whose closest-producer search returns a wrapper, the fields set to
(8, symmetric, signed) are those of that wrapper's `output_quantizers[0]`
object itself; the slot state of every module is untouched. -/
theorem claim_C10_matmul_rule_mutates_producer_own_output_qtzr
    (g : Graph) (qm : List (String × Nat)) (st : SimState) (name : String) (mid : Nat)
    (a : Option QtzrId) (mop : Op) (pIdx wmid : Nat) (qid : QtzrId)
    (hkind : (st.modules.getD mid default).kind = MKind.matmul)
    (hslots : (st.modules.getD mid default).inputQuantizers = [a, none])
    (hop : get_connected_graph_op g g.modelName name = some mop)
    (hprod : (g.products.getD (mop.inputs.getD 1 0) default).producer = some pIdx)
    (hsearch : get_closest_producer g qm st.modules (g.orderedOps.length + 1)
        (g.orderedOps.getD pIdx default) = some wmid)
    (hout : (st.modules.getD wmid default).outputQuantizers.getD 0 none = some qid) :
    applyMatmulStep g qm st (name, mid) =
      { st with qtzrs := st.qtzrs.set qid { bitwidth := 8, symmetric := true, signed := true } } := by
  unfold applyMatmulStep
  dsimp only
  rw [if_pos hkind, hslots, hop]
  dsimp only
  rw [Option.isNone_none, if_pos rfl, hprod]
  dsimp only
  rw [hsearch]
  dsimp only
  rw [hout]

/-- C1 (amended): under the same conditions as C10, the matmul module's
second input quantizer slot is NOT assigned the found producer's output
quantizer — the module store is unchanged and the slot stays unset — and
the producer's output quantizer object is instead coerced in place to
(bitwidth 8, symmetric, signed). -/
theorem claim_C1_amended_matmul_slot_not_assigned_producer_coerced
    (g : Graph) (qm : List (String × Nat)) (st : SimState) (name : String) (mid : Nat)
    (a : Option QtzrId) (mop : Op) (pIdx wmid : Nat) (qid : QtzrId)
    (hkind : (st.modules.getD mid default).kind = MKind.matmul)
    (hslots : (st.modules.getD mid default).inputQuantizers = [a, none])
    (hop : get_connected_graph_op g g.modelName name = some mop)
    (hprod : (g.products.getD (mop.inputs.getD 1 0) default).producer = some pIdx)
    (hsearch : get_closest_producer g qm st.modules (g.orderedOps.length + 1)
        (g.orderedOps.getD pIdx default) = some wmid)
    (hout : (st.modules.getD wmid default).outputQuantizers.getD 0 none = some qid) :
    (applyMatmulStep g qm st (name, mid)).modules = st.modules ∧
    ((applyMatmulStep g qm st (name, mid)).modules.getD mid default).inputQuantizers.getD 1
      none = none ∧
    (applyMatmulStep g qm st (name, mid)).qtzrs =
      st.qtzrs.set qid { bitwidth := 8, symmetric := true, signed := true } := by
  have hstep : applyMatmulStep g qm st (name, mid) =
      { st with qtzrs := st.qtzrs.set qid { bitwidth := 8, symmetric := true, signed := true } } := by
    unfold applyMatmulStep
    dsimp only
    rw [if_pos hkind, hslots, hop]
    dsimp only
    rw [Option.isNone_none, if_pos rfl, hprod]
    dsimp only
    rw [hsearch]
    dsimp only
    rw [hout]
  refine ⟨by rw [hstep], ?_, by rw [hstep]⟩
  rw [hstep]
  dsimp only
  rw [hslots]
  rfl

/-- Counterexample for C1 as stated: the closest-producer search succeeds
(returning producer module 0, whose output quantizer is object 0), yet
after running the whole matmul rule the matmul module's second input
quantizer slot is still unset — the found quantizer is never assigned to
it. Only the producer's quantizer object 0 is coerced to (8, true, true). -/
theorem claim_C1_counterexample_slot_never_assigned :
    get_closest_producer gMM (quant_modules modelMM stMM.modules) stMM.modules
      (gMM.orderedOps.length + 1) (gMM.orderedOps.getD 0 default) = some 0 ∧
    (stMM.modules.getD 0 default).outputQuantizers.getD 0 none = some 0 ∧
    ((set_matmul_second_input_producer_to_8bit_symmetric ⟨some gMM, modelMM⟩ stMM).modules.getD
      1 default).inputQuantizers.getD 1 none = none ∧
    (set_matmul_second_input_producer_to_8bit_symmetric ⟨some gMM, modelMM⟩ stMM).qtzrs =
      [⟨8, true, true⟩, ⟨16, false, false⟩] := by
  decide

/-- Witness for the amended C1 at the matmul fixture. -/
theorem claim_C1_amended_witness :
    (applyMatmulStep gMM (quant_modules modelMM stMM.modules) stMM ("mm", 1)).modules =
      stMM.modules ∧
    ((applyMatmulStep gMM (quant_modules modelMM stMM.modules) stMM
      ("mm", 1)).modules.getD 1 default).inputQuantizers.getD 1 none = none ∧
    (applyMatmulStep gMM (quant_modules modelMM stMM.modules) stMM ("mm", 1)).qtzrs =
      stMM.qtzrs.set 0 { bitwidth := 8, symmetric := true, signed := true } :=
  claim_C1_amended_matmul_slot_not_assigned_producer_coerced gMM
    (quant_modules modelMM stMM.modules) stMM "mm" 1 none
    (gMM.orderedOps.getD 1 default) 0 0 0
    (by decide) (by decide) (by decide) (by decide) (by decide) (by decide)

/-- Witness for C7 at the pre-assigned fixture. -/
theorem claim_C7_matmul_preassigned_slot_kept_fields_coerced_witness :
    applyMatmulStep gMM (quant_modules modelMM stMM7.modules) stMM7 ("mm", 1) =
      { stMM7 with qtzrs := stMM7.qtzrs.set 1 { bitwidth := 8, symmetric := true, signed := true } } :=
  claim_C7_matmul_preassigned_slot_kept_fields_coerced gMM
    (quant_modules modelMM stMM7.modules) stMM7 "mm" 1 none 1
    (gMM.orderedOps.getD 1 default) (by decide) (by decide) (by decide)

/-- Witness for C10 at the matmul fixture. -/
theorem claim_C10_matmul_rule_mutates_producer_own_output_qtzr_witness :
    applyMatmulStep gMM (quant_modules modelMM stMM.modules) stMM ("mm", 1) =
      { stMM with qtzrs := stMM.qtzrs.set 0 { bitwidth := 8, symmetric := true, signed := true } } :=
  claim_C10_matmul_rule_mutates_producer_own_output_qtzr gMM
    (quant_modules modelMM stMM.modules) stMM "mm" 1 none
    (gMM.orderedOps.getD 1 default) 0 0 0
    (by decide) (by decide) (by decide) (by decide) (by decide) (by decide)

/-! ### Claim C8 -/

theorem getD_map_lt {α β : Type} (f : α → β) (l : List α) (i : Nat) (db : β) (da : α)
    (h : i < l.length) : (l.map f).getD i db = f (l.getD i da) := by
  induction l generalizing i with
  | nil => simp at h
  | cons a as ih =>
    cases i with
    | zero => rfl
    | succ j =>
      simp only [List.map]
      rw [List.getD_cons_succ, List.getD_cons_succ]
      exact ih j (by simpa using h)

theorem getD_of_length_le {α : Type} (l : List α) (i : Nat) (d : α)
    (h : l.length ≤ i) : l.getD i d = d := by
  induction l generalizing i with
  | nil => cases i <;> rfl
  | cons a as ih =>
    cases i with
    | zero => simp at h
    | succ j =>
      rw [List.getD_cons_succ]
      exact ih j (by simpa using h)

/-- C8: weight clipping replaces the weight of exactly those layers whose
weight parameter quantizer is present, non-`None`, 16-bit, affine,
symmetric and initialized — by the element-wise minimum of the weight and
`0x7f7f * scale` — and leaves every layer failing any precondition
bit-for-bit unchanged. -/
theorem claim_C8_weight_clipping_exactly_under_preconditions
    (layers : List (String × WLayer)) (i : Nat) (nm : String) (l : WLayer)
    (h : layers.getD i ("", default) = (nm, l)) :
    (∀ wq, l.paramQuantizersWeight = some (some wq) →
      wq.bitwidth = 16 → wq.isAffine = true → wq.symmetric = true → wq.initialized = true →
      (clip_weights_to_7f7f layers).getD i ("", default) =
        (nm, { l with weight := l.weight.map fun w => min w (wq.scale * 0x7f7f) })) ∧
    ((∀ wq, l.paramQuantizersWeight = some (some wq) →
        ¬(wq.bitwidth = 16 ∧ wq.isAffine = true ∧ wq.symmetric = true ∧ wq.initialized = true)) →
      (clip_weights_to_7f7f layers).getD i ("", default) = (nm, l)) := by
  by_cases hi : i < layers.length
  · constructor
    · intro wq hwq h16 haff hsym hinit
      unfold clip_weights_to_7f7f
      rw [getD_map_lt _ layers i ("", default) ("", default) hi, h]
      dsimp only
      rw [hwq]
      have hcond : (decide (wq.bitwidth = 16) && wq.isAffine && wq.symmetric &&
          wq.initialized) = true := by
        simp [h16, haff, hsym, hinit]
      dsimp only
      rw [if_pos hcond]
    · intro hn
      unfold clip_weights_to_7f7f
      rw [getD_map_lt _ layers i ("", default) ("", default) hi, h]
      dsimp only
      cases hpq : l.paramQuantizersWeight with
      | none => rfl
      | some o =>
        cases o with
        | none => rfl
        | some wq =>
          have hnc := hn wq hpq
          have hcond : ¬((decide (wq.bitwidth = 16) && wq.isAffine && wq.symmetric &&
              wq.initialized) = true) := by
            intro hb
            simp only [Bool.and_eq_true, decide_eq_true_eq] at hb
            exact hnc ⟨hb.1.1.1, hb.1.1.2, hb.1.2, hb.2⟩
          dsimp only
          rw [if_neg hcond]
  · have hle := Nat.le_of_not_lt hi
    have h0 : layers.getD i ("", (default : WLayer)) = ("", default) :=
      getD_of_length_le layers i ("", default) hle
    rw [h0] at h
    injection h with h1 h2
    subst h1
    subst h2
    have hclip : (clip_weights_to_7f7f layers).getD i ("", (default : WLayer)) =
        ("", default) := by
      apply getD_of_length_le
      unfold clip_weights_to_7f7f
      rw [List.length_map]
      exact hle
    constructor
    · intro wq hwq
      exact absurd hwq (by intro hc; exact Option.noConfusion hc)
    · intro _
      exact hclip

/-- Witness for C8: layer `a` is clipped element-wise at 65278, layer `b`
is unchanged. -/
theorem claim_C8_weight_clipping_exactly_under_preconditions_witness :
    (clip_weights_to_7f7f [("a", layerA), ("b", layerB)]).getD 0 ("", default) =
      ("a", { layerA with weight := layerA.weight.map fun w => min w (wqA.scale * 0x7f7f) }) ∧
    (clip_weights_to_7f7f [("a", layerA), ("b", layerB)]).getD 1 ("", default) =
      ("b", layerB) :=
  ⟨(claim_C8_weight_clipping_exactly_under_preconditions
      [("a", layerA), ("b", layerB)] 0 "a" layerA rfl).1 wqA rfl rfl rfl rfl rfl,
   (claim_C8_weight_clipping_exactly_under_preconditions
      [("a", layerA), ("b", layerB)] 1 "b" layerB rfl).2
      (fun wq hwq => by
        have hwq2 : some (some (⟨8, true, true, true, 2⟩ : WQtzr)) = some (some wq) := hwq
        injection hwq2 with h1
        injection h1 with h2
        intro hc
        rw [← h2] at hc
        exact absurd hc.1 (by decide))⟩

/-! ### Claim C9 -/

/-- Counterexample for C9 as stated: propagating with the selector matching
B leaves B's input-quantizer slot 0 unset (`none`), so it does not become
the same object as A's output-quantizer slot 0 — which holds object 0
before the call and object 1 after it. -/
theorem claim_C9_counterexample_B_input_slot_not_set :
    propagate_output_encodings ⟨some g9, model9⟩ (.byModule 2) st9 = .ok stF9 ∧
    ((stF9.getD 2 default).inputQuantizers.getD 0 none = none) ∧
    (st9.getD 0 default).outputQuantizers.getD 0 none = some 0 ∧
    (stF9.getD 0 default).outputQuantizers.getD 0 none = some 1 := by
  refine ⟨rfl, rfl, rfl, rfl⟩

/-- C9 (amended): in the graph `A -> Reshape -> B`, propagating with a
selector matching B overwrites A's output-quantizer slot 0 with the
identical object held in B's output-quantizer slot 0, and leaves B's
input-quantizer slots unchanged (input slots are written only for root
inputs). -/
theorem claim_C9_amended_A_output_slot_gets_B_output_qtzr :
    propagate_output_encodings ⟨some g9, model9⟩ (.byModule 2) st9 = .ok stF9 ∧
    (stF9.getD 0 default).outputQuantizers.getD 0 none =
      (st9.getD 2 default).outputQuantizers.getD 0 none ∧
    (stF9.getD 2 default).inputQuantizers = (st9.getD 2 default).inputQuantizers := by
  refine ⟨rfl, rfl, rfl⟩

/-! ### Claim C4: backward propagation through a math-invariant chain -/

/-- `overwriteProducerOutput` never touches any module's input slots. -/
theorem inputQuantizers_guardedSetOutput (st : ModStore) (mid i : Nat) (q : QtzrId)
    (j : Nat) :
    ((if ((st.getD mid default).outputQuantizers.getD i none).isSome then
        setOutputQtzr st mid i q
      else st).getD j default).inputQuantizers = (st.getD j default).inputQuantizers := by
  split
  · exact inputQuantizers_setOutputQtzr st mid i q j
  · rfl

theorem inputQuantizers_overwriteProducerOutput (model : List (String × Nat))
    (st : ModStore) (producer : Op) (x : Nat) (q : QtzrId) (j : Nat) :
    ((overwriteProducerOutput model st producer x q).getD j default).inputQuantizers =
      (st.getD j default).inputQuantizers := by
  unfold overwriteProducerOutput
  cases get_qmodule model producer with
  | none => rfl
  | some mid =>
    dsimp only
    exact inputQuantizers_guardedSetOutput st mid _ q j

/-- The backward walk along a chain of math-invariant quantized ops:
starting `_set_src_qtzr` at the product leaving chain position `k` (from
any state reachable from `st` by a propagation walk, with enough fuel)
ends by writing `some q` into input slot 0 of the chain head's module. -/
theorem chain_walk
    (g : Graph) (model : List (String × Nat)) (q : QtzrId) (st : ModStore)
    (pid opIdx midOf : Nat → Nat) (n : Nat)
    (hroot : (g.products.getD (pid 0) default).producer = none)
    (hshape : ¬((g.products.getD (pid 0) default).shape = none))
    (hmid0 : midOf 0 < st.length)
    (hchain : ∀ k, k < n →
      (g.orderedOps.getD (opIdx k) default).inputs = [pid k] ∧
      get_qmodule model (g.orderedOps.getD (opIdx k) default) = some (midOf k) ∧
      _is_math_invariant_op (st.getD (midOf k) default) = true)
    (hprod : ∀ k, k < n →
      (g.products.getD (pid (k + 1)) default).producer = some (opIdx k)) :
    ∀ k, k < n → ∀ fuel st' consumer, k + 2 ≤ fuel → ModPres st st' →
      ((_set_src_qtzr g model q fuel st' (pid (k + 1)) consumer).getD (midOf 0)
          default).inputQuantizers =
        ((st'.getD (midOf 0) default).inputQuantizers).set 0 (some q) := by
  intro k
  induction k with
  | zero =>
    intro h0n fuel st' consumer hfuel hpres
    obtain ⟨f, rfl⟩ : ∃ f, fuel = f + 1 := ⟨fuel - 1, by omega⟩
    obtain ⟨hinp0, hq0, hinv0⟩ := hchain 0 h0n
    rw [_set_src_qtzr, hprod 0 h0n]
    dsimp only
    have hsp : shouldPropagateThrough model st'
        (g.orderedOps.getD (opIdx 0) default) = true := by
      unfold shouldPropagateThrough
      rw [hq0]
      dsimp only
      unfold _is_math_invariant_op at hinv0 ⊢
      rw [hpres.2.1 (midOf 0)]
      exact hinv0
    rw [if_pos hsp, hinp0, List.foldl_cons, List.foldl_nil]
    obtain ⟨f', rfl⟩ : ∃ f', f = f' + 1 := ⟨f - 1, by omega⟩
    rw [_set_src_qtzr, hroot]
    dsimp only
    rw [if_neg hshape]
    unfold setRootInputQtzr
    rw [hq0]
    dsimp only
    rw [hinp0]
    have hidx : [pid 0].indexOf (pid 0) = 0 := List.indexOf_cons_self _ _
    rw [hidx, ite_self]
    have hpres1 : ModPres st
        (overwriteProducerOutput model st' (g.orderedOps.getD (opIdx 0) default)
          (pid (0 + 1)) q) :=
      modPres_trans hpres (modPres_overwriteProducerOutput model st' _ _ q)
    have hlen1 : midOf 0 <
        (overwriteProducerOutput model st' (g.orderedOps.getD (opIdx 0) default)
          (pid (0 + 1)) q).length := by
      rw [hpres1.1]
      exact hmid0
    rw [getD_setInputQtzr_self _ (midOf 0) 0 q hlen1]
    dsimp only
    rw [inputQuantizers_overwriteProducerOutput model st' _ (pid (0 + 1)) q (midOf 0)]
  | succ k ih =>
    intro hkn fuel st' consumer hfuel hpres
    obtain ⟨f, rfl⟩ : ∃ f, fuel = f + 1 := ⟨fuel - 1, by omega⟩
    obtain ⟨hinp, hq1, hinv⟩ := hchain (k + 1) hkn
    rw [_set_src_qtzr, hprod (k + 1) hkn]
    dsimp only
    have hsp : shouldPropagateThrough model st'
        (g.orderedOps.getD (opIdx (k + 1)) default) = true := by
      unfold shouldPropagateThrough
      rw [hq1]
      dsimp only
      unfold _is_math_invariant_op at hinv ⊢
      rw [hpres.2.1 (midOf (k + 1))]
      exact hinv
    rw [if_pos hsp, hinp, List.foldl_cons, List.foldl_nil]
    have hpres1 : ModPres st
        (overwriteProducerOutput model st' (g.orderedOps.getD (opIdx (k + 1)) default)
          (pid (k + 1 + 1)) q) :=
      modPres_trans hpres (modPres_overwriteProducerOutput model st' _ _ q)
    rw [ih (Nat.lt_of_succ_lt hkn) f _ _ (by omega) hpres1]
    rw [inputQuantizers_overwriteProducerOutput model st' _ (pid (k + 1 + 1)) q (midOf 0)]

/-- The loop body skips an op whose module is unresolved or rejected by
the condition, leaving the state untouched. -/
theorem processOp_neutral (g : Graph) (model : List (String × Nat)) (cond : Nat → Bool)
    (s : ModStore) (op : Op)
    (h : get_qmodule model op = none ∨
      ∃ m, get_qmodule model op = some m ∧ cond m = false) :
    processOp g model cond s op = .ok s := by
  unfold processOp
  rcases h with h | ⟨m, hm, hc⟩
  · rw [h]
  · rw [hm]
    dsimp only
    rw [if_neg (by rw [hc]; exact fun hcon => Bool.noConfusion hcon)]

/-- Folding the loop body over ops that are all skipped returns the state
unchanged. -/
theorem foldlM_neutral (g : Graph) (model : List (String × Nat)) (cond : Nat → Bool) :
    ∀ (l : List Op) (s : ModStore),
      (∀ op ∈ l, get_qmodule model op = none ∨
        ∃ m, get_qmodule model op = some m ∧ cond m = false) →
      l.foldlM (fun s' op => processOp g model cond s' op) s = .ok s := by
  intro l
  induction l with
  | nil => intro s _; rfl
  | cons y ys ih =>
    intro s h
    rw [List.foldlM_cons, processOp_neutral g model cond s y (h y (List.mem_cons_self y ys))]
    simp only [Bind.bind, Except.bind]
    exact ih s fun op hop => h op (List.mem_cons_of_mem y hop)

/-- C4: in any acyclic graph where a chain of math-invariant quantized ops
(positions `0, …, n-1`, op `opIdx k` with module `midOf k` consuming
product `pid k` and producing `pid (k+1)`) connects a root input to the
single input of a selected module `opS` — processed first in reverse
topological order, all other ops being skipped — propagation succeeds and
writes the selected module's single output quantizer object `q` into input
slot 0 of the chain head's module, the consumer of the root input. -/
theorem claim_C4_math_invariant_chain_propagates_to_root_consumer_slot
    (g : Graph) (model : List (String × Nat)) (cond : Nat → Bool) (st : ModStore)
    (opS : Op) (restOps : List Op) (selMid : Nat) (q : QtzrId)
    (pid opIdx midOf : Nat → Nat) (n : Nat)
    (hn : 0 < n)
    (hrev : g.orderedOps.reverse = opS :: restOps)
    (hrest : ∀ op ∈ restOps, get_qmodule model op = none ∨
      ∃ m, get_qmodule model op = some m ∧ cond m = false)
    (hqS : get_qmodule model opS = some selMid)
    (hcS : cond selMid = true)
    (houtS : (st.getD selMid default).outputQuantizers = [some q])
    (hinS : opS.inputs = [pid n])
    (hroot : (g.products.getD (pid 0) default).producer = none)
    (hshape : ¬((g.products.getD (pid 0) default).shape = none))
    (hmid0 : midOf 0 < st.length)
    (hchain : ∀ k, k < n →
      (g.orderedOps.getD (opIdx k) default).inputs = [pid k] ∧
      get_qmodule model (g.orderedOps.getD (opIdx k) default) = some (midOf k) ∧
      _is_math_invariant_op (st.getD (midOf k) default) = true)
    (hprod : ∀ k, k < n →
      (g.products.getD (pid (k + 1)) default).producer = some (opIdx k))
    (hfuel : n + 1 ≤ g.orderedOps.length) :
    _propagate_output_encodings g model cond st =
      .ok (_set_src_qtzr g model q (g.orderedOps.length + 1) st (pid n) opS) ∧
    ((_set_src_qtzr g model q (g.orderedOps.length + 1) st (pid n) opS).getD (midOf 0)
        default).inputQuantizers =
      ((st.getD (midOf 0) default).inputQuantizers).set 0 (some q) := by
  obtain ⟨n', rfl⟩ : ∃ n', n = n' + 1 := ⟨n - 1, by omega⟩
  have hstep : processOp g model cond st opS =
      .ok (_set_src_qtzr g model q (g.orderedOps.length + 1) st (pid (n' + 1)) opS) := by
    unfold processOp
    rw [hqS]
    dsimp only
    rw [if_pos hcS]
    have hlen1 : ¬((st.getD selMid default).outputQuantizers.length ≠ 1) := by
      rw [houtS]; simp
    rw [if_neg hlen1, houtS]
    dsimp only
    rw [hinS, List.foldl_cons, List.foldl_nil]
  constructor
  · unfold _propagate_output_encodings
    rw [hrev, List.foldlM_cons, hstep]
    simp only [Bind.bind, Except.bind]
    exact foldlM_neutral g model cond restOps _ hrest
  · exact chain_walk g model q st pid opIdx midOf (n' + 1) hroot hshape hmid0 hchain hprod
      n' (Nat.lt_succ_self n') (g.orderedOps.length + 1) st opS (by omega) (modPres_refl st)

/-- Witness for C4: the concrete one-reshape chain; propagation succeeds
and the reshape module's input slot 0 receives quantizer object 3. -/
theorem claim_C4_math_invariant_chain_propagates_to_root_consumer_slot_witness :
    _propagate_output_encodings gC4 modelC4 (fun mid => mid = 1) stC4 =
      .ok (_set_src_qtzr gC4 modelC4 3 (gC4.orderedOps.length + 1) stC4 1
        (gC4.orderedOps.getD 1 default)) ∧
    ((_set_src_qtzr gC4 modelC4 3 (gC4.orderedOps.length + 1) stC4 1
        (gC4.orderedOps.getD 1 default)).getD 0 default).inputQuantizers =
      ((stC4.getD 0 default).inputQuantizers).set 0 (some 3) :=
  claim_C4_math_invariant_chain_propagates_to_root_consumer_slot gC4 modelC4
    (fun mid => mid = 1) stC4 (gC4.orderedOps.getD 1 default)
    [gC4.orderedOps.getD 0 default] 1 3 (fun k => k) (fun _ => 0) (fun _ => 0) 1
    (by decide) (by decide)
    (by
      intro op hop
      rw [List.mem_singleton] at hop
      subst hop
      exact Or.inr ⟨0, by decide, by decide⟩)
    (by decide) (by decide) (by decide) (by decide) (by decide) (by decide) (by decide)
    (by
      intro k hk
      interval_cases k
      exact ⟨by decide, by decide, by decide⟩)
    (by
      intro k hk
      interval_cases k
      exact (by decide))
    (by decide)

end QuantsimUtils
